import Mathlib

/-!
Verification of the configuration-to-invocation compiler and launcher of
`claude_gui.py` (a Tk front end that assembles an argument vector for an
external CLI, previews it, and launches it).

The Lean definitions below are a shallow embedding of the relevant source
functions:
* `buildCommand`   embeds `_build_command`   (claude_gui.py lines 730-900),
* `quoteArg`       embeds `_quote_arg`       (lines 717-728, `shlex.quote`
  modelled from the CPython implementation it calls),
* `launchClaude` / `launchClaudeUnix` embed `_launch_claude` (926-954) and
  `_launch_claude_unix` (956-1011) as effect-trace functions over an
  explicit environment (filesystem checks, `shutil.which`, `subprocess.Popen`
  results), with the shell-word parsers used to state the quote round-trip
  property.
-/

namespace ClaudeGui

/-- The ASCII whitespace characters stripped by Python `str.strip()`. -/
def isPyWhite (c : Char) : Bool :=
  c = ' ' || c = '\t' || c = '\n' || c = '\r' || c = '\x0b' || c = '\x0c'

/-- Python `str.strip()` on a character list: drop whitespace from both
ends. -/
def pyStripL (l : List Char) : List Char :=
  ((l.dropWhile isPyWhite).reverse.dropWhile isPyWhite).reverse

/-- Python `str.strip()` on the text-widget contents (whitespace removed at
both ends; the ASCII whitespace set suffices for the GUI's text). -/
def pyStrip (s : String) : String := ⟨pyStripL s.data⟩

/-- The flat record of GUI fields read by `_build_command`.  Scalar `tk`
string variables are `String` (Python truthiness = non-empty), checkbox
variables are `Bool`, the two path list boxes are `List String`, and the
multi-line text widgets (`agents_json`, `tools`, `system_prompt`,
`append_prompt`, `json_schema`) hold their raw text, stripped at use site
exactly as the source does. -/
structure GuiConfig where
  claude_path : String
  model : String
  fallback_model : String
  continue_sess : Bool
  resume : String
  fork_session : Bool
  session_id : String
  agent : String
  agents_json : String
  tools : String
  allowed_tools : String
  disallowed_tools : String
  disable_slash_commands : Bool
  system_prompt : String
  append_prompt : String
  print_mode : Bool
  input_format : String
  output_format : String
  json_schema : String
  include_partial_msgs : Bool
  replay_user_msgs : Bool
  mcp_config : String
  strict_mcp : Bool
  plugin_dirs : List String
  permission_mode : String
  allow_skip_perms : Bool
  skip_perms : Bool
  add_dirs : List String
  file_specs : String
  max_budget : String
  debug : String
  debug_file : String
  verbose : Bool
  chrome : String
  ide : Bool
  settings : String
  setting_user : Bool
  setting_project : Bool
  setting_local : Bool
  betas : String
  no_session_persistence : Bool
  prompt : String

/-- `self.claude_path_var.get() or "claude"` (line 733): Python `or` falls
back to `"claude"` exactly when the configured path is the empty string. -/
def effPath (c : GuiConfig) : String :=
  if c.claude_path = "" then "claude" else c.claude_path

/-- The `sources` list of `_build_command` lines 878-884: category names
appended in the fixed order user, project, local. -/
def settingSources (u p l : Bool) : List String :=
  (if u then ["user"] else []) ++ (if p then ["project"] else [])
    ++ (if l then ["local"] else [])

/-- Lines 877-886: `--setting-sources` with the comma-joined categories,
emitted only when at least one category is selected. -/
def sourcesSeg (u p l : Bool) : List String :=
  if settingSources u p l ≠ [] then
    ["--setting-sources", String.intercalate "," (settingSources u p l)]
  else []

/-- One `if <string var>: cmd.extend([flag, value])` block of
`_build_command`: the flag/value pair is emitted exactly when the value is
non-empty (Python string truthiness). -/
def strSeg (flag v : String) : List String := if v ≠ "" then [flag, v] else []

/-- One `if <bool var>: cmd.append(...)`/`cmd.extend(...)` block of
`_build_command`. -/
def boolSeg (b : Bool) (toks : List String) : List String := if b then toks else []

/-- One `for d in <dirs>: cmd.extend([flag, d])` loop of `_build_command`
(lines 827-828 and 842-843). -/
def dirSeg (flag : String) (ds : List String) : List String :=
  ds.flatMap fun d => [flag, d]

/-- `_build_command` (lines 730-900): the ordered argument vector.  Each
list entry is one conditional `append`/`extend` block of the source, in
source order; the free-form prompt is appended at the very end
(lines 896-898). -/
def buildCommand (c : GuiConfig) : List String := List.flatten
  [ [effPath c]
  , strSeg "--model" c.model
  , strSeg "--fallback-model" c.fallback_model
  , boolSeg c.continue_sess ["-c"]
  , strSeg "-r" c.resume
  , boolSeg c.fork_session ["--fork-session"]
  , strSeg "--session-id" c.session_id
  , strSeg "--agent" c.agent
  , strSeg "--agents" (pyStrip c.agents_json)
  , strSeg "--tools" (pyStrip c.tools)
  , strSeg "--allowedTools" c.allowed_tools
  , strSeg "--disallowedTools" c.disallowed_tools
  , boolSeg c.disable_slash_commands ["--disable-slash-commands"]
  , strSeg "--system-prompt" (pyStrip c.system_prompt)
  , strSeg "--append-system-prompt" (pyStrip c.append_prompt)
  , boolSeg c.print_mode ["-p"]
  , (if c.input_format ≠ "text" then ["--input-format", c.input_format] else [])
  , (if c.output_format ≠ "text" then ["--output-format", c.output_format] else [])
  , strSeg "--json-schema" (pyStrip c.json_schema)
  , boolSeg c.include_partial_msgs ["--include-partial-messages"]
  , boolSeg c.replay_user_msgs ["--replay-user-messages"]
  , strSeg "--mcp-config" c.mcp_config
  , boolSeg c.strict_mcp ["--strict-mcp-config"]
  , dirSeg "--plugin-dir" c.plugin_dirs
  , (if c.permission_mode ≠ "default" then ["--permission-mode", c.permission_mode] else [])
  , boolSeg c.allow_skip_perms ["--allow-dangerously-skip-permissions"]
  , boolSeg c.skip_perms ["--dangerously-skip-permissions"]
  , dirSeg "--add-dir" c.add_dirs
  , strSeg "--file" c.file_specs
  , strSeg "--max-budget-usd" c.max_budget
  , strSeg "--debug" c.debug
  , strSeg "--debug-file" c.debug_file
  , boolSeg c.verbose ["--verbose"]
  , (if c.chrome = "enabled" then ["--chrome"]
      else if c.chrome = "disabled" then ["--no-chrome"] else [])
  , boolSeg c.ide ["--ide"]
  , strSeg "--settings" c.settings
  , sourcesSeg c.setting_user c.setting_project c.setting_local
  , strSeg "--betas" c.betas
  , boolSeg c.no_session_persistence ["--no-session-persistence"]
  , (if c.prompt ≠ "" then [c.prompt] else []) ]

/-- The all-empty / all-default configuration: every string field empty,
every checkbox off, both path lists empty, the two format enumerations at
their default `"text"`, permission mode and chrome at `"default"`. -/
def emptyConfig : GuiConfig where
  claude_path := ""
  model := ""
  fallback_model := ""
  continue_sess := false
  resume := ""
  fork_session := false
  session_id := ""
  agent := ""
  agents_json := ""
  tools := ""
  allowed_tools := ""
  disallowed_tools := ""
  disable_slash_commands := false
  system_prompt := ""
  append_prompt := ""
  print_mode := false
  input_format := "text"
  output_format := "text"
  json_schema := ""
  include_partial_msgs := false
  replay_user_msgs := false
  mcp_config := ""
  strict_mcp := false
  plugin_dirs := []
  permission_mode := "default"
  allow_skip_perms := false
  skip_perms := false
  add_dirs := []
  file_specs := ""
  max_budget := ""
  debug := ""
  debug_file := ""
  verbose := false
  chrome := "default"
  ide := false
  settings := ""
  setting_user := false
  setting_project := false
  setting_local := false
  betas := ""
  no_session_persistence := false
  prompt := ""

/-- A list is an infix of itself followed by anything. -/
lemma infix_here (y r : List String) : y <:+: y ++ r := ⟨[], r, by simp⟩

/-- Prepending on the left preserves infixes. -/
lemma infix_skip (x : List String) {y t : List String} (h : y <:+: t) :
    y <:+: x ++ t := by
  obtain ⟨p, q, hp⟩ := h
  exact ⟨x ++ p, q, by rw [← hp]; simp [List.append_assoc]⟩

/-- Claim C1: if the free-form prompt text is non-empty it is the final
token of the vector produced by `_build_command`, whatever the other
fields; if the prompt is empty the vector is exactly the flags-only vector,
with no positional token appended. -/
theorem prompt_positional_last (c : GuiConfig) :
    buildCommand c
      = buildCommand { c with prompt := "" }
        ++ (if c.prompt = "" then [] else [c.prompt])
    ∧ (c.prompt ≠ "" → (buildCommand c).getLast? = some c.prompt) := by
  have hmain : buildCommand c
      = buildCommand { c with prompt := "" }
        ++ (if c.prompt = "" then [] else [c.prompt]) := by
    by_cases hp : c.prompt = "" <;>
      simp [buildCommand, effPath, hp, List.append_assoc]
  refine ⟨hmain, fun hp => ?_⟩
  rw [hmain, if_neg hp]
  exact List.getLast?_concat _

/-- Witness for C1 at a concrete configuration. -/
theorem prompt_positional_last_witness :
    ({ emptyConfig with model := "opus", prompt := "hi" } : GuiConfig).prompt ≠ ""
    ∧ (buildCommand { emptyConfig with model := "opus", prompt := "hi" }).getLast?
        = some "hi" := by
  refine ⟨by decide, ?_⟩
  exact (prompt_positional_last { emptyConfig with model := "opus", prompt := "hi" }).2
    (by decide)

/-- Claim C3 (Scenario A): only model `"opus"` and prompt `"hello"` set,
executable path `"claude"`: the built vector is exactly
`["claude", "--model", "opus", "hello"]`. -/
theorem scenario_a_model_prompt_vector :
    buildCommand { emptyConfig with claude_path := "claude", model := "opus", prompt := "hello" }
      = ["claude", "--model", "opus", "hello"] := by decide

/-- Claim C9: with an empty executable-path field the first token of the
built vector is the literal `"claude"`, and the first token is never the
empty string. -/
theorem executable_default_first_token (c : GuiConfig) :
    (c.claude_path = "" → (buildCommand c).head? = some "claude")
    ∧ (buildCommand c).head? ≠ some "" := by
  have hhead : (buildCommand c).head? = some (effPath c) := by
    simp [buildCommand]
  constructor
  · intro h
    rw [hhead]
    simp [effPath, h]
  · rw [hhead]
    intro hcon
    have : effPath c = "" := by simpa using hcon
    revert this
    unfold effPath
    split
    · decide
    · next h => exact h

/-- Witness for C9 at a concrete configuration. -/
theorem executable_default_first_token_witness :
    (emptyConfig : GuiConfig).claude_path = ""
    ∧ (buildCommand emptyConfig).head? = some "claude" :=
  ⟨by decide, (executable_default_first_token emptyConfig).1 (by decide)⟩

/-- Stripping the empty string gives the empty string. -/
lemma pyStrip_empty : pyStrip "" = "" := rfl

/-- Counterexample to claim C5: a tools field deliberately set to a
whitespace-only marker (distinct source value from the unset empty string)
is collapsed by `_build_command` to exactly the unset vector: no `--tools`
token is emitted, so the builder does not preserve the set/unset
distinction. -/
theorem tools_explicit_empty_collapses_cex :
    buildCommand { emptyConfig with tools := " " } = buildCommand emptyConfig
    ∧ "--tools" ∉ buildCommand { emptyConfig with tools := " " } := by decide

/-- Claim C5 as amended: `_build_command` emits `--tools` exactly when the
tools text is non-empty after trimming; a tools value that trims to the
empty string is collapsed to an omitted flag, indistinguishable from an
unset field. -/
theorem tools_trim_emission (c : GuiConfig) :
    (pyStrip c.tools = "" → buildCommand c = buildCommand { c with tools := "" })
    ∧ (pyStrip c.tools ≠ "" → ["--tools", pyStrip c.tools] <:+: buildCommand c) := by
  constructor
  · intro h
    simp [buildCommand, effPath, strSeg, h, pyStrip_empty]
  · intro h
    have hseg : strSeg "--tools" (pyStrip c.tools) = ["--tools", pyStrip c.tools] := by
      simp [strSeg, h]
    simp only [buildCommand, List.flatten, List.append_nil]
    rw [hseg]
    repeat first
      | exact infix_here _ _
      | apply infix_skip

/-- Witness for the amended C5 at a concrete configuration. -/
theorem tools_trim_emission_witness :
    pyStrip ({ emptyConfig with tools := "Bash" } : GuiConfig).tools ≠ ""
    ∧ ["--tools", "Bash"] <:+: buildCommand { emptyConfig with tools := "Bash" } :=
  ⟨by decide, (tools_trim_emission { emptyConfig with tools := "Bash" }).2 (by decide)⟩

/-- The four enumeration fields hold one of the values offered by their
read-only comboboxes (source lines 380-393, 519-525, 606-611). -/
@[reducible] def EnumsValid (c : GuiConfig) : Prop :=
  c.input_format ∈ ["text", "stream-json"]
  ∧ c.output_format ∈ ["text", "json", "stream-json"]
  ∧ c.permission_mode ∈
      ["default", "acceptEdits", "bypassPermissions", "delegate", "dontAsk", "plan"]
  ∧ c.chrome ∈ ["default", "enabled", "disabled"]

/-- No free-text field of the configuration coincides with the token `f`:
needed to count `f` as a flag in the flat vector, since a user-supplied
value equal to the literal flag string would be indistinguishable from an
emitted flag. -/
@[reducible] def NoTokenClash (c : GuiConfig) (f : String) : Prop :=
  effPath c ≠ f ∧ c.model ≠ f ∧ c.fallback_model ≠ f ∧ c.resume ≠ f
  ∧ c.session_id ≠ f ∧ c.agent ≠ f ∧ pyStrip c.agents_json ≠ f
  ∧ pyStrip c.tools ≠ f ∧ c.allowed_tools ≠ f ∧ c.disallowed_tools ≠ f
  ∧ pyStrip c.system_prompt ≠ f ∧ pyStrip c.append_prompt ≠ f
  ∧ pyStrip c.json_schema ≠ f ∧ c.mcp_config ≠ f ∧ f ∉ c.plugin_dirs
  ∧ f ∉ c.add_dirs ∧ c.file_specs ≠ f ∧ c.max_budget ≠ f ∧ c.debug ≠ f
  ∧ c.debug_file ≠ f ∧ c.settings ≠ f ∧ c.betas ≠ f ∧ c.prompt ≠ f

lemma ne_of_mem_enum {v f : String} {l : List String} (hv : v ∈ l) (hf : f ∉ l) :
    v ≠ f := fun h => hf (h ▸ hv)

lemma count_strSeg_zero {flag v f : String} (h1 : flag ≠ f) (h2 : v ≠ f) :
    (strSeg flag v).count f = 0 := by
  unfold strSeg
  split <;> simp [List.count_cons, beq_iff_eq, h1, h2]

lemma count_boolSeg_zero {f : String} (b : Bool) {toks : List String}
    (h : toks.count f = 0) : (boolSeg b toks).count f = 0 := by
  unfold boolSeg
  split <;> simp [h]

lemma count_dirSeg_zero {flag f : String} {ds : List String} (h1 : flag ≠ f)
    (h2 : f ∉ ds) : (dirSeg flag ds).count f = 0 := by
  induction ds with
  | nil => simp [dirSeg]
  | cons d ds ih =>
    simp only [List.mem_cons, not_or] at h2
    have := ih h2.2
    simp only [dirSeg, List.flatMap_cons] at this ⊢
    simp [List.count_append, List.count_cons, beq_iff_eq, h1, h2.1, this]

lemma count_ite_zero {p : Prop} [Decidable p] {l1 l2 : List String} {f : String}
    (h1 : l1.count f = 0) (h2 : l2.count f = 0) :
    (if p then l1 else l2).count f = 0 := by
  split <;> assumption

lemma count_input_format (c : GuiConfig) (henum : EnumsValid c)
    (hcl : NoTokenClash c "--input-format") :
    (buildCommand c).count "--input-format"
      = if c.input_format = "text" then 0 else 1 := by
  obtain ⟨hv1, hv2, hv3, hv4⟩ := henum
  obtain ⟨h1, h2, h3, h4, h5, h6, h7, h8, h9, h10, h11, h12, h13, h14, h15,
    h16, h17, h18, h19, h20, h21, h22, h23⟩ := hcl
  have e1 : c.input_format ≠ "--input-format" := ne_of_mem_enum hv1 (by decide)
  have e2 : c.output_format ≠ "--input-format" := ne_of_mem_enum hv2 (by decide)
  have e3 : c.permission_mode ≠ "--input-format" := ne_of_mem_enum hv3 (by decide)
  have hss : ∀ u p l : Bool, (sourcesSeg u p l).count "--input-format" = 0 := by decide
  by_cases hf : c.input_format = "text" <;>
    simp [buildCommand, List.count_append, hf, count_strSeg_zero,
      count_boolSeg_zero, count_dirSeg_zero, count_ite_zero, hss,
      List.count_cons, beq_iff_eq, *]

lemma count_output_format (c : GuiConfig) (henum : EnumsValid c)
    (hcl : NoTokenClash c "--output-format") :
    (buildCommand c).count "--output-format"
      = if c.output_format = "text" then 0 else 1 := by
  obtain ⟨hv1, hv2, hv3, hv4⟩ := henum
  obtain ⟨h1, h2, h3, h4, h5, h6, h7, h8, h9, h10, h11, h12, h13, h14, h15,
    h16, h17, h18, h19, h20, h21, h22, h23⟩ := hcl
  have e1 : c.input_format ≠ "--output-format" := ne_of_mem_enum hv1 (by decide)
  have e2 : c.output_format ≠ "--output-format" := ne_of_mem_enum hv2 (by decide)
  have e3 : c.permission_mode ≠ "--output-format" := ne_of_mem_enum hv3 (by decide)
  have hss : ∀ u p l : Bool, (sourcesSeg u p l).count "--output-format" = 0 := by decide
  by_cases hf : c.output_format = "text" <;>
    simp [buildCommand, List.count_append, hf, count_strSeg_zero,
      count_boolSeg_zero, count_dirSeg_zero, count_ite_zero, hss,
      List.count_cons, beq_iff_eq, *]

lemma count_permission_mode (c : GuiConfig) (henum : EnumsValid c)
    (hcl : NoTokenClash c "--permission-mode") :
    (buildCommand c).count "--permission-mode"
      = if c.permission_mode = "default" then 0 else 1 := by
  obtain ⟨hv1, hv2, hv3, hv4⟩ := henum
  obtain ⟨h1, h2, h3, h4, h5, h6, h7, h8, h9, h10, h11, h12, h13, h14, h15,
    h16, h17, h18, h19, h20, h21, h22, h23⟩ := hcl
  have e1 : c.input_format ≠ "--permission-mode" := ne_of_mem_enum hv1 (by decide)
  have e2 : c.output_format ≠ "--permission-mode" := ne_of_mem_enum hv2 (by decide)
  have e3 : c.permission_mode ≠ "--permission-mode" := ne_of_mem_enum hv3 (by decide)
  have hss : ∀ u p l : Bool, (sourcesSeg u p l).count "--permission-mode" = 0 := by decide
  by_cases hf : c.permission_mode = "default" <;>
    simp [buildCommand, List.count_append, hf, count_strSeg_zero,
      count_boolSeg_zero, count_dirSeg_zero, count_ite_zero, hss,
      List.count_cons, beq_iff_eq, *]

lemma count_chrome (c : GuiConfig) (henum : EnumsValid c)
    (hcl : NoTokenClash c "--chrome") :
    (buildCommand c).count "--chrome"
      = if c.chrome = "enabled" then 1 else 0 := by
  obtain ⟨hv1, hv2, hv3, hv4⟩ := henum
  obtain ⟨h1, h2, h3, h4, h5, h6, h7, h8, h9, h10, h11, h12, h13, h14, h15,
    h16, h17, h18, h19, h20, h21, h22, h23⟩ := hcl
  have e1 : c.input_format ≠ "--chrome" := ne_of_mem_enum hv1 (by decide)
  have e2 : c.output_format ≠ "--chrome" := ne_of_mem_enum hv2 (by decide)
  have e3 : c.permission_mode ≠ "--chrome" := ne_of_mem_enum hv3 (by decide)
  have hss : ∀ u p l : Bool, (sourcesSeg u p l).count "--chrome" = 0 := by decide
  by_cases hf : c.chrome = "enabled"
  · simp [buildCommand, List.count_append, hf, count_strSeg_zero,
      count_boolSeg_zero, count_dirSeg_zero, count_ite_zero, hss,
      List.count_cons, beq_iff_eq, *]
  · by_cases hg : c.chrome = "disabled" <;>
      simp [buildCommand, List.count_append, hf, hg, count_strSeg_zero,
        count_boolSeg_zero, count_dirSeg_zero, count_ite_zero, hss,
        List.count_cons, beq_iff_eq, *]

lemma count_no_chrome (c : GuiConfig) (henum : EnumsValid c)
    (hcl : NoTokenClash c "--no-chrome") :
    (buildCommand c).count "--no-chrome"
      = if c.chrome = "disabled" then 1 else 0 := by
  obtain ⟨hv1, hv2, hv3, hv4⟩ := henum
  obtain ⟨h1, h2, h3, h4, h5, h6, h7, h8, h9, h10, h11, h12, h13, h14, h15,
    h16, h17, h18, h19, h20, h21, h22, h23⟩ := hcl
  have e1 : c.input_format ≠ "--no-chrome" := ne_of_mem_enum hv1 (by decide)
  have e2 : c.output_format ≠ "--no-chrome" := ne_of_mem_enum hv2 (by decide)
  have e3 : c.permission_mode ≠ "--no-chrome" := ne_of_mem_enum hv3 (by decide)
  have hss : ∀ u p l : Bool, (sourcesSeg u p l).count "--no-chrome" = 0 := by decide
  by_cases hf : c.chrome = "enabled"
  · have hg : c.chrome ≠ "disabled" := by rw [hf]; decide
    simp [buildCommand, List.count_append, hf, hg, count_strSeg_zero,
      count_boolSeg_zero, count_dirSeg_zero, count_ite_zero, hss,
      List.count_cons, beq_iff_eq, *]
  · by_cases hg : c.chrome = "disabled" <;>
      simp [buildCommand, List.count_append, hf, hg, count_strSeg_zero,
        count_boolSeg_zero, count_dirSeg_zero, count_ite_zero, hss,
        List.count_cons, beq_iff_eq, *]

/-- Claim C2: with the enumeration fields drawn from their combobox value
sets and no free-text field colliding with the literal flag tokens, setting
input-format, output-format, permission-mode or chrome-integration to its
documented default (`"text"`, `"text"`, `"default"`, `"default"`) emits no
corresponding flag, and setting any of them to a non-default value emits
exactly one corresponding flag, with its value token where the flag takes
one. -/
theorem default_omission_exact_flags (c : GuiConfig) (henum : EnumsValid c)
    (hin : NoTokenClash c "--input-format") (hout : NoTokenClash c "--output-format")
    (hpm : NoTokenClash c "--permission-mode") (hch : NoTokenClash c "--chrome")
    (hnch : NoTokenClash c "--no-chrome") :
    ((c.input_format = "text" → (buildCommand c).count "--input-format" = 0)
      ∧ (c.input_format ≠ "text" →
          (buildCommand c).count "--input-format" = 1
          ∧ ["--input-format", c.input_format] <:+: buildCommand c))
    ∧ ((c.output_format = "text" → (buildCommand c).count "--output-format" = 0)
      ∧ (c.output_format ≠ "text" →
          (buildCommand c).count "--output-format" = 1
          ∧ ["--output-format", c.output_format] <:+: buildCommand c))
    ∧ ((c.permission_mode = "default" →
          (buildCommand c).count "--permission-mode" = 0)
      ∧ (c.permission_mode ≠ "default" →
          (buildCommand c).count "--permission-mode" = 1
          ∧ ["--permission-mode", c.permission_mode] <:+: buildCommand c))
    ∧ ((c.chrome = "default" → (buildCommand c).count "--chrome" = 0
          ∧ (buildCommand c).count "--no-chrome" = 0)
      ∧ (c.chrome = "enabled" → (buildCommand c).count "--chrome" = 1
          ∧ (buildCommand c).count "--no-chrome" = 0)
      ∧ (c.chrome = "disabled" → (buildCommand c).count "--no-chrome" = 1
          ∧ (buildCommand c).count "--chrome" = 0)) := by
  have cif := count_input_format c henum hin
  have cof := count_output_format c henum hout
  have cpm := count_permission_mode c henum hpm
  have cch := count_chrome c henum hch
  have cnc := count_no_chrome c henum hnch
  refine ⟨⟨fun h => ?_, fun h => ⟨?_, ?_⟩⟩, ⟨fun h => ?_, fun h => ⟨?_, ?_⟩⟩,
    ⟨fun h => ?_, fun h => ⟨?_, ?_⟩⟩, fun h => ⟨?_, ?_⟩, fun h => ⟨?_, ?_⟩,
    fun h => ⟨?_, ?_⟩⟩
  · rw [cif, if_pos h]
  · rw [cif, if_neg h]
  · simp only [buildCommand, List.flatten, List.append_nil]
    rw [if_pos h]
    repeat first
      | exact infix_here _ _
      | apply infix_skip
  · rw [cof, if_pos h]
  · rw [cof, if_neg h]
  · simp only [buildCommand, List.flatten, List.append_nil]
    rw [if_pos h]
    repeat first
      | exact infix_here _ _
      | apply infix_skip
  · rw [cpm, if_pos h]
  · rw [cpm, if_neg h]
  · simp only [buildCommand, List.flatten, List.append_nil]
    rw [if_pos h]
    repeat first
      | exact infix_here _ _
      | apply infix_skip
  · rw [cch, h]; decide
  · rw [cnc, h]; decide
  · rw [cch, h]; decide
  · rw [cnc, h]; decide
  · rw [cnc, h]; decide
  · rw [cch, h]; decide

/-- A configuration with all four enumeration fields non-default, used as
the concrete input of the C2 witness. -/
def nonDefaultConfig : GuiConfig :=
  { emptyConfig with
    input_format := "stream-json"
    output_format := "json"
    permission_mode := "plan"
    chrome := "enabled" }

/-- Witness for C2 at a configuration with all four enumerations
non-default. -/
theorem default_omission_exact_flags_witness :
    (EnumsValid nonDefaultConfig
      ∧ NoTokenClash nonDefaultConfig "--input-format")
    ∧ (buildCommand nonDefaultConfig).count "--input-format" = 1
    ∧ (buildCommand nonDefaultConfig).count "--chrome" = 1 := by
  refine ⟨⟨by decide, by decide⟩, ?_, ?_⟩
  · exact ((default_omission_exact_flags _ (by decide) (by decide) (by decide)
      (by decide) (by decide) (by decide)).1.2 (by decide)).1
  · exact ((default_omission_exact_flags _ (by decide) (by decide) (by decide)
      (by decide) (by decide) (by decide)).2.2.2.2.1 (by decide)).1

/-! ## `_quote_arg` (lines 717-728) and the platform shell-argument rules -/

/-- The characters `shlex.quote` leaves unquoted: the complement of
CPython's `_find_unsafe` ASCII regex, i.e. ASCII alphanumerics, underscore
and the punctuation `@ % + = : , . - ` and the forward slash. -/
def shlexSafe (c : Char) : Bool :=
  c.isAlphanum || c = '_' || c = '@' || c = '%' || c = '+' || c = '='
    || c = ':' || c = ',' || c = '.' || c = '/' || c = '-'

/-- The body of a single-quoted `shlex.quote` rendering: each embedded
single quote becomes the five characters of `'"'"'`. -/
def innerQ (l : List Char) : List Char :=
  l.flatMap fun c => if c = '\'' then ['\'', '"', '\'', '"', '\''] else [c]

/-- CPython `shlex.quote` on a character list: `''` for the empty string,
the string itself when every character is safe, otherwise the single-quoted
form. -/
def shlexQuoteL (l : List Char) : List Char :=
  if l = [] then ['\'', '\'']
  else if l.all shlexSafe then l
  else '\'' :: (innerQ l ++ ['\''])

/-- CPython `shlex.quote`. -/
def shlexQuote (s : String) : String := ⟨shlexQuoteL s.data⟩

/-- The `cmd` metacharacters checked at line 723: `&|<>^`. -/
def winSpecial (c : Char) : Bool :=
  c = '&' || c = '|' || c = '<' || c = '>' || c = '^'

/-- Line 723: the token needs quoting when it contains a space, a double
quote, a tab, a newline, or one of `&|<>^`. -/
def winNeedsQuote (s : String) : Bool :=
  s.data.any fun c => c = ' ' || c = '"' || c = '\t' || c = '\n' || winSpecial c

/-- Line 724: `arg.replace('"', '\\"')`. -/
def winEscL (l : List Char) : List Char :=
  l.flatMap fun c => if c = '"' then ['\\', '"'] else [c]

/-- `_quote_arg` (lines 717-728): `""`/`''` for the empty token; on
Windows, double-quote wrapping with embedded quotes escaped when the token
contains whitespace, a quote or a metacharacter, the bare token otherwise;
on POSIX, `shlex.quote`. -/
def quoteArg (win : Bool) (s : String) : String :=
  if s = "" then (if win then "\"\"" else "''")
  else if win then
    (if winNeedsQuote s then ⟨'"' :: (winEscL s.data ++ ['"'])⟩ else s)
  else shlexQuote s

/-! ### POSIX shell word parsing

`posixParseTokens` implements POSIX shell word splitting for a command
line with no expansions: single quotes protect everything up to the next
single quote, double quotes protect everything except `$`, `` ` ``, `"`
and `\`, a backslash escapes the next character, and unquoted whitespace
separates words.  Characters that the shell would not pass through
literally (operators and expansion triggers such as `;&|<>()$` and glob
characters) make the parse fail, since a string containing them unquoted
does not reliably reproduce any fixed token. -/

inductive PMode | norm | insingle | indouble
deriving DecidableEq

structure PState where
  mode : PMode
  esc : Bool
  cur : List Char
  started : Bool
  toks : List (List Char)

/-- Unquoted whitespace: the default IFS characters. -/
def isShellWhite (c : Char) : Bool := c = ' ' || c = '\t' || c = '\n'

/-- Characters that are shell operators or expansion triggers when
unquoted. -/
def posixSpecial (c : Char) : Bool :=
  c = ';' || c = '&' || c = '|' || c = '<' || c = '>' || c = '(' || c = ')'
    || c = '$' || c = '`' || c = '*' || c = '?' || c = '['

/-- Close the current word, if one has started. -/
def pDelimit (st : PState) : PState :=
  if st.started then ⟨.norm, false, [], false, st.toks ++ [st.cur]⟩ else st

def posixStep (st : PState) (c : Char) : Option PState :=
  match st.mode with
  | .insingle =>
    if c = '\'' then some { st with mode := .norm, esc := false }
    else some { st with cur := st.cur ++ [c], esc := false }
  | .indouble =>
    if st.esc then
      if c = '\n' then some { st with esc := false }
      else if c = '$' || c = '`' || c = '"' || c = '\\' then
        some { st with esc := false, cur := st.cur ++ [c] }
      else some { st with esc := false, cur := st.cur ++ ['\\', c] }
    else
      if c = '"' then some { st with mode := .norm }
      else if c = '\\' then some { st with esc := true }
      else if c = '$' || c = '`' then none
      else some { st with cur := st.cur ++ [c] }
  | .norm =>
    if st.esc then
      if c = '\n' then some { st with esc := false }
      else some { st with esc := false, cur := st.cur ++ [c], started := true }
    else
      if c = '\\' then some { st with esc := true }
      else if isShellWhite c then some (pDelimit st)
      else if c = '\'' then some { st with mode := .insingle, started := true }
      else if c = '"' then some { st with mode := .indouble, started := true }
      else if posixSpecial c then none
      else if (c = '~' || c = '#') && !st.started then none
      else some { st with cur := st.cur ++ [c], started := true }

def posixRun : List Char → PState → Option PState
  | [], st => some st
  | c :: cs, st =>
    match posixStep st c with
    | none => none
    | some st2 => posixRun cs st2

/-- End of input: fail inside quotes or after a dangling backslash,
otherwise close the last word. -/
def posixFinish (st : PState) : Option (List String) :=
  match st.mode, st.esc with
  | .norm, false => some ((pDelimit st).toks.map fun l => (⟨l⟩ : String))
  | _, _ => none

def posixInit : PState := ⟨.norm, false, [], false, []⟩

def posixParseTokens (s : String) : Option (List String) :=
  (posixRun s.data posixInit).bind posixFinish

/-! ### Windows shell-argument parsing

`winParseTokens` implements the Windows C-runtime argument rules
(`CommandLineToArgvW`): space and tab separate arguments outside quotes, a
double quote toggles quoted mode, and a run of `n` backslashes before a
double quote collapses to `n/2` backslashes, with the quote taken
literally when `n` is odd; backslashes not before a quote are literal.
The `cmd` metacharacters `&|<>^` outside quotes end a simple argument, so
they make the parse fail. -/

structure WState where
  inQ : Bool
  pend : Nat
  cur : List Char
  started : Bool
  toks : List (List Char)

/-- Close the current word, if one has started. -/
def wDelimit (st : WState) : WState :=
  if st.started then ⟨st.inQ, 0, [], false, st.toks ++ [st.cur]⟩ else st

def winStep (st : WState) (c : Char) : Option WState :=
  if c = '"' then
    if st.pend % 2 = 1 then
      some { st with
        pend := 0
        started := true
        cur := st.cur ++ List.replicate (st.pend / 2) '\\' ++ ['"'] }
    else
      some { st with
        pend := 0
        started := true
        inQ := !st.inQ
        cur := st.cur ++ List.replicate (st.pend / 2) '\\' }
  else if c = '\\' then
    some { st with pend := st.pend + 1, started := true }
  else if st.inQ then
    some { st with pend := 0, cur := st.cur ++ List.replicate st.pend '\\' ++ [c] }
  else if c = ' ' || c = '\t' then
    some (wDelimit { st with pend := 0, cur := st.cur ++ List.replicate st.pend '\\' })
  else if winSpecial c then none
  else
    some { st with
      pend := 0
      started := true
      cur := st.cur ++ List.replicate st.pend '\\' ++ [c] }

def winRun : List Char → WState → Option WState
  | [], st => some st
  | c :: cs, st =>
    match winStep st c with
    | none => none
    | some st2 => winRun cs st2

/-- End of input: flush pending backslashes and close the last word (an
unterminated quoted argument still yields its text, as in
`CommandLineToArgvW`). -/
def winFinish (st : WState) : Option (List String) :=
  some ((wDelimit { st with pend := 0, cur := st.cur ++ List.replicate st.pend '\\' }).toks.map
    fun l => (⟨l⟩ : String))

def winInit : WState := ⟨false, 0, [], false, []⟩

def winParseTokens (s : String) : Option (List String) :=
  (winRun s.data winInit).bind winFinish

/-- No backslash immediately followed by a double quote. -/
def noBB : List Char → Bool
  | [] => true
  | [_] => true
  | a :: b :: t => !(a == '\\' && b == '"') && noBB (b :: t)

/-- The tokens whose Windows rendering survives the Windows argument
rules: no backslash directly before a double quote, and no trailing
backslash when the token triggers quoting. -/
def winSafeTok (s : String) : Bool :=
  noBB s.data && (!(winNeedsQuote s) || !(s.data.getLast? == some '\\'))

example : posixParseTokens (quoteArg false "") = some [""] := by decide
example : posixParseTokens (quoteArg false "a b'c\"d") = some ["a b'c\"d"] := by decide
example : posixParseTokens (quoteArg false "new\nline $x `y` \\") = some ["new\nline $x `y` \\"] := by decide
example : winParseTokens (quoteArg true "") = some [""] := by decide
example : winParseTokens (quoteArg true "a b\"c") = some ["a b\"c"] := by decide
example : winParseTokens (quoteArg true "plain\\path") = some ["plain\\path"] := by decide
example : winParseTokens (quoteArg true "\\\"") = some ["\\"] := by decide

lemma posix_safe_step (c : Char) (h : shlexSafe c = true) (cur : List Char)
    (started : Bool) (toks : List (List Char)) :
    posixStep ⟨.norm, false, cur, started, toks⟩ c
      = some ⟨.norm, false, cur ++ [c], true, toks⟩ := by
  have hbs : c ≠ '\\' := fun hc => by rw [hc] at h; exact absurd h (by decide)
  have hsq : c ≠ '\'' := fun hc => by rw [hc] at h; exact absurd h (by decide)
  have hdq : c ≠ '"' := fun hc => by rw [hc] at h; exact absurd h (by decide)
  have ht : c ≠ '~' := fun hc => by rw [hc] at h; exact absurd h (by decide)
  have hh : c ≠ '#' := fun hc => by rw [hc] at h; exact absurd h (by decide)
  have hw : isShellWhite c = false := by
    cases hwt : isShellWhite c
    · rfl
    · exfalso
      simp only [isShellWhite, Bool.or_eq_true, decide_eq_true_eq, or_assoc] at hwt
      rcases hwt with rfl | rfl | rfl <;> exact absurd h (by decide)
  have hsp : posixSpecial c = false := by
    cases hst : posixSpecial c
    · rfl
    · exfalso
      simp only [posixSpecial, Bool.or_eq_true, decide_eq_true_eq, or_assoc] at hst
      rcases hst with rfl | rfl | rfl | rfl | rfl | rfl | rfl | rfl | rfl | rfl | rfl | rfl <;>
        exact absurd h (by decide)
  simp [posixStep, hbs, hsq, hdq, hw, hsp, decide_eq_false ht, decide_eq_false hh]

lemma posix_safe_run (l : List Char) (h : l.all shlexSafe = true) (cur : List Char)
    (started : Bool) (toks : List (List Char)) :
    posixRun l ⟨.norm, false, cur, started, toks⟩
      = some ⟨.norm, false, cur ++ l, started || !l.isEmpty, toks⟩ := by
  induction l generalizing cur started with
  | nil => simp [posixRun]
  | cons c l ih =>
    simp only [List.all_cons, Bool.and_eq_true] at h
    simp only [posixRun, posix_safe_step c h.1 cur started toks]
    rw [ih h.2]
    simp

lemma posix_inner_run (l : List Char) (cur : List Char) (toks : List (List Char)) :
    posixRun (innerQ l ++ ['\'']) ⟨.insingle, false, cur, true, toks⟩
      = some ⟨.norm, false, cur ++ l, true, toks⟩ := by
  induction l generalizing cur with
  | nil => simp [innerQ, posixRun, posixStep]
  | cons c l ih =>
    by_cases hc : c = '\''
    · subst hc
      have hstep : posixRun (innerQ ('\'' :: l) ++ ['\''])
            (⟨.insingle, false, cur, true, toks⟩ : PState)
          = posixRun (innerQ l ++ ['\''])
            ⟨.insingle, false, cur ++ ['\''], true, toks⟩ := rfl
      rw [hstep, ih]
      simp
    · have hstep : posixStep (⟨.insingle, false, cur, true, toks⟩ : PState) c
          = some ⟨.insingle, false, cur ++ [c], true, toks⟩ := by
        simp [posixStep, hc]
      have hlist : innerQ (c :: l) ++ ['\''] = c :: (innerQ l ++ ['\'']) := by
        simp [innerQ, hc]
      rw [hlist]
      simp only [posixRun, hstep]
      rw [ih]
      simp

lemma posix_quote_roundtrip (s : String) :
    posixParseTokens (quoteArg false s) = some [s] := by
  by_cases hs : s = ""
  · subst hs; decide
  · have hd : s.data ≠ [] := by
      intro h
      apply hs
      cases s with
      | mk d => subst h; rfl
    have hq : quoteArg false s = shlexQuote s := by simp [quoteArg, hs]
    rw [hq]
    by_cases hall : s.data.all shlexSafe
    · have hquote : shlexQuoteL s.data = s.data := by simp [shlexQuoteL, hd, hall]
      show (posixRun (shlexQuoteL s.data) posixInit).bind posixFinish = some [s]
      rw [hquote]
      simp only [posixInit]
      rw [posix_safe_run s.data hall [] false []]
      have hne : s.data.isEmpty = false := by simpa using hd
      simp [posixFinish, pDelimit, hne]
    · have hquote : shlexQuoteL s.data = '\'' :: (innerQ s.data ++ ['\'']) := by
        simp [shlexQuoteL, hd, hall]
      show (posixRun (shlexQuoteL s.data) posixInit).bind posixFinish = some [s]
      rw [hquote]
      have h1 : posixStep posixInit '\'' = some ⟨.insingle, false, [], true, []⟩ := rfl
      simp only [posixRun, h1]
      rw [posix_inner_run]
      simp [posixFinish, pDelimit]

lemma noBB_tail {a : Char} {l : List Char} (h : noBB (a :: l) = true) :
    noBB l = true := by
  cases l with
  | nil => rfl
  | cons b t =>
    simp only [noBB, Bool.and_eq_true] at h
    exact h.2

lemma win_plain_run (l : List Char)
    (h : ∀ c ∈ l, c ≠ '"' ∧ c ≠ ' ' ∧ c ≠ '\t' ∧ winSpecial c = false)
    (p : Nat) (cur : List Char) (started : Bool) (toks : List (List Char)) :
    (winRun l ⟨false, p, cur, started, toks⟩).bind winFinish
      = some ((if started = true ∨ l ≠ [] then
            toks ++ [cur ++ List.replicate p '\\' ++ l]
          else toks).map fun t => (⟨t⟩ : String)) := by
  induction l generalizing p cur started with
  | nil =>
    cases started <;> simp [winRun, winFinish, wDelimit]
  | cons c l ih =>
    obtain ⟨hq, hsp, hta, hws⟩ := h c (List.mem_cons_self c l)
    have hrest : ∀ c ∈ l, c ≠ '"' ∧ c ≠ ' ' ∧ c ≠ '\t' ∧ winSpecial c = false :=
      fun d hd => h d (List.mem_cons_of_mem c hd)
    by_cases hbs : c = '\\'
    · subst hbs
      have hstep : winStep ⟨false, p, cur, started, toks⟩ '\\'
          = some ⟨false, p + 1, cur, true, toks⟩ := rfl
      simp only [winRun, hstep]
      rw [ih hrest (p + 1) cur true]
      simp [List.replicate_succ', List.append_assoc]
    · have hstep : winStep ⟨false, p, cur, started, toks⟩ c
          = some ⟨false, 0, cur ++ List.replicate p '\\' ++ [c], true, toks⟩ := by
        simp [winStep, hq, hbs, hws, decide_eq_false hsp, decide_eq_false hta]
      simp only [winRun, hstep]
      rw [ih hrest 0 (cur ++ List.replicate p '\\' ++ [c]) true]
      simp [List.append_assoc]

lemma win_esc_run (l : List Char) (h1 : noBB l = true)
    (h2 : l ≠ [] → l.getLast? ≠ some '\\')
    (p : Nat) (hA : l = [] → p = 0) (hB : l.head? = some '"' → p = 0)
    (cur : List Char) (toks : List (List Char)) :
    winRun (winEscL l ++ ['"']) ⟨true, p, cur, true, toks⟩
      = some ⟨false, 0, cur ++ List.replicate p '\\' ++ l, true, toks⟩ := by
  induction l generalizing p cur with
  | nil =>
    have hp := hA rfl
    subst hp
    simp [winEscL, winRun, winStep]
  | cons c l ih =>
    by_cases hq : c = '"'
    · subst hq
      have hp : p = 0 := hB (by simp)
      subst hp
      have hl : winEscL ('"' :: l) ++ ['"'] = '\\' :: '"' :: (winEscL l ++ ['"']) := by
        simp [winEscL]
      have s1 : winStep ⟨true, 0, cur, true, toks⟩ '\\'
          = some ⟨true, 1, cur, true, toks⟩ := rfl
      have s2 : winStep ⟨true, 1, cur, true, toks⟩ '"'
          = some ⟨true, 0, cur ++ ['"'], true, toks⟩ := by
        simp [winStep]
      have h2' : l ≠ [] → l.getLast? ≠ some '\\' := by
        intro hne
        have := h2 (List.cons_ne_nil _ _)
        cases l with
        | nil => exact absurd rfl hne
        | cons b t => rwa [List.getLast?_cons_cons] at this
      rw [hl]
      simp only [winRun, s1, s2]
      rw [ih (noBB_tail h1) h2' 0 (fun _ => rfl) (fun _ => rfl) (cur ++ ['"'])]
      simp [List.append_assoc]
    · by_cases hbs : c = '\\'
      · subst hbs
        have hlne : l ≠ [] := by
          intro h0
          subst h0
          exact (h2 (List.cons_ne_nil _ _)) (by simp)
        have hhd : l.head? ≠ some '"' := by
          intro hh
          cases l with
          | nil => exact hlne rfl
          | cons d t =>
            simp only [List.head?_cons, Option.some.injEq] at hh
            subst hh
            simp [noBB] at h1
        have h2' : l ≠ [] → l.getLast? ≠ some '\\' := by
          intro hne
          have := h2 (List.cons_ne_nil _ _)
          cases l with
          | nil => exact absurd rfl hne
          | cons b t => rwa [List.getLast?_cons_cons] at this
        have hl : winEscL ('\\' :: l) ++ ['"'] = '\\' :: (winEscL l ++ ['"']) := by
          simp [winEscL]
        have s1 : winStep ⟨true, p, cur, true, toks⟩ '\\'
            = some ⟨true, p + 1, cur, true, toks⟩ := rfl
        rw [hl]
        simp only [winRun, s1]
        rw [ih (noBB_tail h1) h2' (p + 1) (fun h0 => absurd h0 hlne)
          (fun h0 => absurd h0 hhd) cur]
        simp [List.replicate_succ', List.append_assoc]
      · have h2' : l ≠ [] → l.getLast? ≠ some '\\' := by
          intro hne
          have := h2 (List.cons_ne_nil _ _)
          cases l with
          | nil => exact absurd rfl hne
          | cons b t => rwa [List.getLast?_cons_cons] at this
        have hl : winEscL (c :: l) ++ ['"'] = c :: (winEscL l ++ ['"']) := by
          simp [winEscL, hq]
        have s1 : winStep ⟨true, p, cur, true, toks⟩ c
            = some ⟨true, 0, cur ++ List.replicate p '\\' ++ [c], true, toks⟩ := by
          simp [winStep, hq, hbs]
        rw [hl]
        simp only [winRun, s1]
        rw [ih (noBB_tail h1) h2' 0 (fun _ => rfl) (fun _ => rfl)
          (cur ++ List.replicate p '\\' ++ [c])]
        simp [List.append_assoc]

lemma win_quote_roundtrip (s : String) (hsafe : winSafeTok s = true) :
    winParseTokens (quoteArg true s) = some [s] := by
  by_cases hs : s = ""
  · subst hs; decide
  · have hd : s.data ≠ [] := by
      intro h
      apply hs
      cases s with
      | mk d => subst h; rfl
    simp only [winSafeTok, Bool.and_eq_true, Bool.or_eq_true, Bool.not_eq_true',
      beq_eq_false_iff_ne, ne_eq] at hsafe
    obtain ⟨hbb, hdisj⟩ := hsafe
    by_cases hnq : winNeedsQuote s = true
    · have hlast : s.data.getLast? ≠ some '\\' := by
        rcases hdisj with h | h
        · rw [hnq] at h; cases h
        · exact h
      have hq : quoteArg true s = ⟨'"' :: (winEscL s.data ++ ['"'])⟩ := by
        simp [quoteArg, hs, hnq]
      rw [hq]
      show (winRun ('"' :: (winEscL s.data ++ ['"'])) winInit).bind winFinish = some [s]
      have s1 : winStep winInit '"' = some ⟨true, 0, [], true, []⟩ := by
        simp [winStep, winInit]
      simp only [winRun, s1]
      rw [win_esc_run s.data hbb (fun _ => hlast) 0 (fun _ => rfl) (fun _ => rfl) [] []]
      simp [winFinish, wDelimit]
    · have hq : quoteArg true s = s := by simp [quoteArg, hs, hnq]
      rw [hq]
      show (winRun s.data winInit).bind winFinish = some [s]
      have hnq' : winNeedsQuote s = false := by
        cases h : winNeedsQuote s
        · rfl
        · exact absurd h hnq
      have hplain : ∀ c ∈ s.data, c ≠ '"' ∧ c ≠ ' ' ∧ c ≠ '\t' ∧ winSpecial c = false := by
        intro c hc
        have hfa := hnq'
        simp only [winNeedsQuote, List.any_eq_false, Bool.or_eq_false_iff,
          decide_eq_false_iff_not] at hfa
        have h := hfa c hc
        simp only [Bool.or_eq_true, decide_eq_true_eq, not_or, Bool.not_eq_true] at h
        exact ⟨h.1.1.1.2, h.1.1.1.1, h.1.1.2, h.2⟩
      rw [show winInit = (⟨false, 0, [], false, []⟩ : WState) from rfl]
      rw [win_plain_run s.data hplain 0 [] false []]
      simp [hd]

/-- Counterexample to claim C4: the token consisting of a backslash
followed by a double quote is corrupted by the Windows rendering of
`_quote_arg` — the backslash doubling of `\"` makes the Windows
argument rules read `\\"` as an escaped backslash plus a quote toggle, so
the parse does not reconstruct the token. -/
theorem quote_roundtrip_windows_cex :
    ¬ winParseTokens (quoteArg true "\\\"") = some ["\\\""] := by decide

/-- Claim C4 as amended: `quoteForDisplay` round-trips every token through
the POSIX shell rules; through the Windows rules it round-trips exactly the
tokens with no backslash directly before a double quote and, when quoting
is triggered, no trailing backslash. -/
theorem quote_roundtrip_amended (s : String) :
    posixParseTokens (quoteArg false s) = some [s]
    ∧ (winSafeTok s = true → winParseTokens (quoteArg true s) = some [s]) :=
  ⟨posix_quote_roundtrip s, win_quote_roundtrip s⟩

/-- Witness for the amended C4 on an adversarial token with spaces, a
double quote and a dollar sign. -/
theorem quote_roundtrip_amended_witness :
    winSafeTok "a b\"c $x" = true
    ∧ posixParseTokens (quoteArg false "a b\"c $x") = some ["a b\"c $x"]
    ∧ winParseTokens (quoteArg true "a b\"c $x") = some ["a b\"c $x"] :=
  ⟨by decide, (quote_roundtrip_amended "a b\"c $x").1,
    (quote_roundtrip_amended "a b\"c $x").2 (by decide)⟩

/-! ## `_launch_claude` (lines 926-954) and `_launch_claude_unix` (956-1011)

The launcher is embedded as a pure function over an explicit environment
recording how each system call behaves (directory check, `shutil.which`
resolution, `os.path.exists`, success of the staging writes, and the result
of each `subprocess.Popen`), returning the propagated exception (if any)
and a trace: whether a temp script was created, whether it still exists on
disk when the call finishes, which argument vectors were successfully
spawned, and which message boxes were shown. -/

inductive OSPlat | win32 | darwin | linux
deriving DecidableEq

/-- The exception classes relevant to the launcher: `FileNotFoundError`
(a subclass of `OSError`) and any other `OSError`. -/
inductive PyErr | fileNotFound | osError
deriving DecidableEq

/-- The message boxes the launcher can show (lines 932, 946, 948, 954,
1007). -/
inductive Notice
  | launchedInfo | backgroundInfo | workingDirError | execNotFoundError
  | launchFailedError
deriving DecidableEq

structure LaunchTrace where
  scriptCreated : Bool
  scriptExists : Bool
  started : List (List String)
  notices : List Notice
deriving DecidableEq

/-- How the host system behaves during one launch attempt. -/
structure SysEnv where
  platform : OSPlat
  isdir : String → Bool
  scriptPath : String
  writeOk : Bool
  closeOk : Bool
  chmodOk : Bool
  removeOk : Bool
  which : String → Option String
  pathExists : String → Bool
  spawn : List String → Option PyErr

/-- The staged script body (lines 961-966): change into the working
directory, run the quoted command, then delete the script itself. -/
def scriptContent (env : SysEnv) (cmd : List String) (wd : String) : String :=
  "#!/bin/sh\ncd " ++ shlexQuote wd ++ " && "
    ++ String.intercalate " " (cmd.map shlexQuote) ++ "\n"
    ++ "rm -f " ++ shlexQuote env.scriptPath ++ "\n"

/-- Lines 958-976: stage the temp script.  `mkstemp` has created the file
and returned an open descriptor.  The `try` block writes the content,
closes the descriptor and sets the permissions; on `OSError` the handler
runs `os.close(fd)`, then best-effort `os.remove`, then re-raises.  Since
`close(2)` releases the descriptor even when it reports an error, the
handler's `os.close(fd)` succeeds only on the write-failure path (where the
descriptor is still open); on the close- and chmod-failure paths it raises
`EBADF`, which propagates out of the handler before `os.remove` is
reached, so the file stays on disk.  Result: the exception that propagates
(if any) and whether the script file exists afterwards. -/
def stageScript (env : SysEnv) : Except PyErr Unit × Bool :=
  if env.writeOk = false then
    if env.removeOk then (.error .osError, false) else (.error .osError, true)
  else if env.closeOk = false then
    (.error .osError, true)
  else if env.chmodOk = false then
    (.error .osError, true)
  else (.ok (), true)

/-- Line 981: `script_path.replace("\\", "\\\\").replace('"', '\\"')`. -/
def osaEscape (p : String) : String :=
  ⟨p.data.flatMap fun c =>
    if c = '\\' then ['\\', '\\'] else if c = '"' then ['\\', '"'] else [c]⟩

/-- Lines 978-990: the terminal-strategy list, `osascript` first on macOS,
then the well-known terminal emulators. -/
def mkLaunchers (env : SysEnv) : List (List String) :=
  (if env.platform = .darwin then
    [["osascript", "-e",
      "tell application \"Terminal\" to do script \"sh "
        ++ osaEscape env.scriptPath ++ "\""]]
  else [])
  ++ [["x-terminal-emulator", "-e", "sh " ++ shlexQuote env.scriptPath ++ "; exec sh"],
      ["gnome-terminal", "--", "sh", "-c", "sh " ++ shlexQuote env.scriptPath ++ "; exec bash"],
      ["xterm", "-e", "sh " ++ shlexQuote env.scriptPath ++ "; exec sh"],
      ["konsole", "-e", "sh", shlexQuote env.scriptPath],
      ["xfce4-terminal", "-e", "sh " ++ shlexQuote env.scriptPath ++ "; exec sh"]]

/-- POSIX `startswith("/")` / `os.path.isabs`. -/
def isAbsPath (s : String) : Bool :=
  match s.data with
  | '/' :: _ => true
  | _ => false

/-- Lines 991-998, one iteration: resolve the candidate (absolute paths
bypass `shutil.which`; a resolved absolute path must exist), then `Popen`;
an `OSError`/`FileNotFoundError` from the attempt is swallowed and the loop
continues. -/
def tryLauncher (env : SysEnv) (argv : List String) : Bool :=
  match argv.head? with
  | none => false
  | some a0 =>
    match (if isAbsPath a0 then some a0 else env.which a0) with
    | none => false
    | some exe =>
      if (if isAbsPath exe then env.pathExists exe else true) then
        (env.spawn argv).isNone
      else false

/-- `_launch_claude_unix` (lines 956-1011): stage the script, try each
terminal strategy in order, and otherwise fall back to a detached
background spawn of the raw command with the script removed in a `finally`
(removal failure swallowed) and a background notice shown on success. -/
def launchClaudeUnix (env : SysEnv) (cmd : List String) (_wd : String) :
    Except PyErr Unit × LaunchTrace :=
  match stageScript env with
  | (.error e, ex) => (.error e, ⟨true, ex, [], []⟩)
  | (.ok _, _) =>
    match (mkLaunchers env).find? (fun argv => tryLauncher env argv) with
    | some argv => (.ok (), ⟨true, true, [argv], []⟩)
    | none =>
      match env.spawn cmd with
      | none => (.ok (), ⟨true, !env.removeOk, [cmd], [.backgroundInfo]⟩)
      | some e => (.error e, ⟨true, !env.removeOk, [], []⟩)

/-- `_launch_claude` (lines 926-954), after the command is built: validate
the working directory, then spawn directly in a new console on Windows or
via `_launch_claude_unix` otherwise, mapping `FileNotFoundError` to the
missing-executable dialog and any other exception to the generic failure
dialog. -/
def launchClaude (env : SysEnv) (cmd : List String) (wd : String) : LaunchTrace :=
  if env.isdir wd = false then ⟨false, false, [], [.workingDirError]⟩
  else
    match env.platform with
    | .win32 =>
      match env.spawn cmd with
      | none => ⟨false, false, [cmd], [.launchedInfo]⟩
      | some .fileNotFound => ⟨false, false, [], [.execNotFoundError]⟩
      | some .osError => ⟨false, false, [], [.launchFailedError]⟩
    | _ =>
      match launchClaudeUnix env cmd wd with
      | (.ok _, t) => { t with notices := t.notices ++ [.launchedInfo] }
      | (.error .fileNotFound, t) => { t with notices := t.notices ++ [.execNotFoundError] }
      | (.error .osError, t) => { t with notices := t.notices ++ [.launchFailedError] }

/-- Claim C6: an invalid working directory makes the launcher return the
working-directory error before any staging or spawn: no temp script is
created, no process is started, and the only notice is the error dialog. -/
theorem invalid_workdir_no_spawn (env : SysEnv) (cmd : List String) (wd : String)
    (h : env.isdir wd = false) :
    launchClaude env cmd wd = ⟨false, false, [], [.workingDirError]⟩ := by
  simp [launchClaude, h]

/-- An environment whose directory check always fails. -/
def envNoDir : SysEnv where
  platform := .linux
  isdir := fun _ => false
  scriptPath := "/tmp/claude_gui_x.sh"
  writeOk := true
  closeOk := true
  chmodOk := true
  removeOk := true
  which := fun _ => none
  pathExists := fun _ => false
  spawn := fun _ => none

/-- Witness for C6. -/
theorem invalid_workdir_no_spawn_witness :
    envNoDir.isdir "/nope" = false
    ∧ launchClaude envNoDir ["claude"] "/nope"
        = ⟨false, false, [], [.workingDirError]⟩ :=
  ⟨rfl, invalid_workdir_no_spawn envNoDir ["claude"] "/nope" rfl⟩

/-- Claim C7: on a POSIX platform with a valid working directory and
successful staging, if every terminal-strategy candidate fails to resolve
or start and the direct spawn succeeds, the launcher spawns the raw
command, removes the staged script (assuming `os.remove` succeeds), and
shows the background notice (followed by the caller's launched dialog). -/
theorem posix_no_terminal_background (env : SysEnv) (cmd : List String)
    (wd : String) (hplat : env.platform ≠ .win32) (hdir : env.isdir wd = true)
    (hw : env.writeOk = true) (hc : env.closeOk = true) (hm : env.chmodOk = true)
    (hr : env.removeOk = true)
    (hall : ∀ argv ∈ mkLaunchers env, tryLauncher env argv = false)
    (hspawn : env.spawn cmd = none) :
    launchClaude env cmd wd
      = ⟨true, false, [cmd], [.backgroundInfo, .launchedInfo]⟩ := by
  have hstage : stageScript env = (.ok (), true) := by
    simp [stageScript, hw, hc, hm]
  have hfind : (mkLaunchers env).find? (fun argv => tryLauncher env argv) = none := by
    rw [List.find?_eq_none]
    intro a ha
    simp [hall a ha]
  cases hp : env.platform with
  | win32 => exact absurd hp hplat
  | darwin => simp [launchClaude, launchClaudeUnix, hdir, hp, hstage, hfind, hspawn, hr]
  | linux => simp [launchClaude, launchClaudeUnix, hdir, hp, hstage, hfind, hspawn, hr]

/-- A POSIX environment with no terminal emulator resolvable and a working
directory that exists. -/
def envNoTerm : SysEnv where
  platform := .linux
  isdir := fun _ => true
  scriptPath := "/tmp/claude_gui_x.sh"
  writeOk := true
  closeOk := true
  chmodOk := true
  removeOk := true
  which := fun _ => none
  pathExists := fun _ => false
  spawn := fun _ => none

/-- Witness for C7. -/
theorem posix_no_terminal_background_witness :
    (envNoTerm.platform ≠ .win32 ∧ envNoTerm.isdir "/home/u" = true
      ∧ (∀ argv ∈ mkLaunchers envNoTerm, tryLauncher envNoTerm argv = false)
      ∧ envNoTerm.spawn ["claude"] = none)
    ∧ launchClaude envNoTerm ["claude"] "/home/u"
        = ⟨true, false, [["claude"]], [.backgroundInfo, .launchedInfo]⟩ :=
  ⟨⟨by decide, rfl, by decide, rfl⟩,
    posix_no_terminal_background envNoTerm ["claude"] "/home/u" (by decide) rfl
      rfl rfl rfl rfl (by decide) rfl⟩

/-- Claim C10: in the POSIX no-terminal fallback, when the direct
background spawn raises, the staged script is still removed (the `finally`
runs before the exception propagates), nothing is started, and the
exception continues to the caller. -/
theorem fallback_spawn_failure_removes_script (env : SysEnv) (cmd : List String)
    (wd : String) (hw : env.writeOk = true) (hc : env.closeOk = true)
    (hm : env.chmodOk = true) (hr : env.removeOk = true)
    (hall : ∀ argv ∈ mkLaunchers env, tryLauncher env argv = false)
    (e : PyErr) (hspawn : env.spawn cmd = some e) :
    launchClaudeUnix env cmd wd = (.error e, ⟨true, false, [], []⟩) := by
  have hstage : stageScript env = (.ok (), true) := by
    simp [stageScript, hw, hc, hm]
  have hfind : (mkLaunchers env).find? (fun argv => tryLauncher env argv) = none := by
    rw [List.find?_eq_none]
    intro a ha
    simp [hall a ha]
  simp [launchClaudeUnix, hstage, hfind, hspawn, hr]

/-- Like `envNoTerm` but every spawn raises an `OSError`. -/
def envSpawnFail : SysEnv where
  platform := .linux
  isdir := fun _ => true
  scriptPath := "/tmp/claude_gui_x.sh"
  writeOk := true
  closeOk := true
  chmodOk := true
  removeOk := true
  which := fun _ => none
  pathExists := fun _ => false
  spawn := fun _ => some .osError

/-- Witness for C10. -/
theorem fallback_spawn_failure_removes_script_witness :
    ((∀ argv ∈ mkLaunchers envSpawnFail, tryLauncher envSpawnFail argv = false)
      ∧ envSpawnFail.spawn ["claude"] = some .osError)
    ∧ launchClaudeUnix envSpawnFail ["claude"] "/home/u"
        = (.error .osError, ⟨true, false, [], []⟩) :=
  ⟨⟨by decide, rfl⟩,
    fallback_spawn_failure_removes_script envSpawnFail ["claude"] "/home/u"
      rfl rfl rfl rfl (by decide) .osError rfl⟩

/-- Like `envNoTerm` but `os.chmod` raises while `os.remove` would
succeed: the staging failure path on which cleanup is claimed. -/
def envChmodFail : SysEnv where
  platform := .linux
  isdir := fun _ => true
  scriptPath := "/tmp/claude_gui_x.sh"
  writeOk := true
  closeOk := true
  chmodOk := false
  removeOk := true
  which := fun _ => none
  pathExists := fun _ => false
  spawn := fun _ => none

/-- Claim C8, evaluated at the failing input: when `os.chmod` raises after
a successful write and close, the handler's `os.close(fd)` re-closes an
already-closed descriptor and itself raises before `os.remove` is reached,
so even though removal would succeed the temp script is left on disk and
the cleanup failure propagates — contradicting the claim that removal is
attempted on every staging-failure path with cleanup failures swallowed. -/
theorem chmod_failure_staging_leaks :
    envChmodFail.removeOk = true
    ∧ stageScript envChmodFail = (.error .osError, true)
    ∧ launchClaudeUnix envChmodFail ["claude"] "/home/u"
        = (.error .osError, ⟨true, true, [], []⟩) :=
  ⟨rfl, rfl, rfl⟩

end ClaudeGui
